import Mathlib

/-!
Verification of the attendance-backend occupancy derivation logic.

The definitions below are a shallow embedding of the JavaScript source:
  - `src/api/index.js` (express app: analytics, attendance, force-checkout,
    cron auto-checkout routes),
  - `src/api/cron/auto-checkout.js` (serverless scheduled handler).

Representation choices:
  - timestamps (`created_at`) are seconds since the Unix epoch (`Nat`);
    `new Date(t).toISOString().split('T')[0]` — the UTC calendar date —
    is modelled by the day index `t / 86400`, since two timestamps share
    the ISO date prefix exactly when they lie in the same UTC day;
  - a JavaScript object used as a dictionary is modelled by an association
    list in key-insertion order: assigning to an existing key overwrites
    its value in place, assigning to a fresh key appends it at the end;
  - external I/O (the Supabase store, internal HTTP hops) is modelled by
    explicit oracle parameters (`Except`-valued functions), and handlers
    additionally report how many store reads/writes they issue.
-/

set_option autoImplicit false

namespace Attendance

/-! ## JavaScript object / dictionary model -/

/-- First value bound to key `k`, i.e. `obj[k]` on a JS object model. -/
def lookupKey {κ β : Type} [DecidableEq κ] : List (κ × β) → κ → Option β
  | [], _ => none
  | (k0, v0) :: rest, k => if k0 = k then some v0 else lookupKey rest k

/-- `obj[k] = v` on a JS object model: overwrite in place if the key is
present, append at the end otherwise. -/
def setKey {κ β : Type} [DecidableEq κ] : List (κ × β) → κ → β → List (κ × β)
  | [], k, v => [(k, v)]
  | (k0, v0) :: rest, k, v =>
      if k0 = k then (k0, v) :: rest else (k0, v0) :: setKey rest k v

theorem lookupKey_setKey {κ β : Type} [DecidableEq κ]
    (m : List (κ × β)) (k u : κ) (v : β) :
    lookupKey (setKey m k v) u = if k = u then some v else lookupKey m u := by
  induction m with
  | nil =>
      by_cases h : k = u <;> simp [setKey, lookupKey, h]
  | cons p rest ih =>
      obtain ⟨k0, v0⟩ := p
      by_cases h0 : k0 = k
      · subst h0
        by_cases h : k0 = u <;> simp [setKey, lookupKey, h]
      · by_cases h : k0 = u
        · subst h
          have : ¬ k = k0 := fun he => h0 he.symm
          simp [setKey, lookupKey, h0, this]
        · simp [setKey, lookupKey, h0, h, ih]

theorem keys_setKey {κ β : Type} [DecidableEq κ]
    (m : List (κ × β)) (k : κ) (v : β) :
    (setKey m k v).map Prod.fst =
      if k ∈ m.map Prod.fst then m.map Prod.fst else m.map Prod.fst ++ [k] := by
  induction m with
  | nil => simp [setKey]
  | cons p rest ih =>
      obtain ⟨k0, v0⟩ := p
      by_cases h0 : k0 = k
      · subst h0
        simp [setKey]
      · by_cases hk : k ∈ rest.map Prod.fst
        · simp [setKey, h0, ih, hk, Ne.symm h0]
        · simp [setKey, h0, ih, hk, Ne.symm h0]

theorem nodupKeys_setKey {κ β : Type} [DecidableEq κ]
    (m : List (κ × β)) (k : κ) (v : β)
    (hm : (m.map Prod.fst).Nodup) : ((setKey m k v).map Prod.fst).Nodup := by
  rw [keys_setKey]
  by_cases h : k ∈ m.map Prod.fst
  · simpa [h] using hm
  · simp only [h, if_false]
    simp [List.nodup_append, hm, h]

theorem mem_of_lookupKey_eq_some {κ β : Type} [DecidableEq κ]
    (m : List (κ × β)) (k : κ) (v : β)
    (h : lookupKey m k = some v) : (k, v) ∈ m := by
  induction m with
  | nil => simp [lookupKey] at h
  | cons p rest ih =>
      obtain ⟨k0, v0⟩ := p
      by_cases h0 : k0 = k
      · subst h0
        simp [lookupKey] at h
        simp [h]
      · simp [lookupKey, h0] at h
        exact List.mem_cons_of_mem _ (ih h)

theorem lookupKey_eq_some_of_mem_nodup {κ β : Type} [DecidableEq κ]
    (m : List (κ × β)) (k : κ) (v : β)
    (hm : (m.map Prod.fst).Nodup) (h : (k, v) ∈ m) : lookupKey m k = some v := by
  induction m with
  | nil => simp at h
  | cons p rest ih =>
      obtain ⟨k0, v0⟩ := p
      rw [List.map_cons, List.nodup_cons] at hm
      rcases List.mem_cons.mp h with he | hmem
      · injection he with h1 h2
        subst h1; subst h2
        simp [lookupKey]
      · by_cases h0 : k0 = k
        · subst h0
          exact absurd (List.mem_map_of_mem Prod.fst hmem) hm.1
        · simpa [lookupKey, h0] using ih hm.2 hmem

/-! ## Data model

One row of the `attendance` table joined with `users(name)`, as fetched by
`fetchAttendanceToday` / the analytics queries. -/

/-- Value of the `Check` column: `'IN'` or `'OUT'`. -/
inductive CheckKind where
  | IN
  | OUT
deriving DecidableEq, Repr

/-- An attendance event row (`rfid_uid`, `Check`, `created_at`,
`users?.name`). -/
structure AttendanceEvent where
  rfid_uid : String
  Check : CheckKind
  created_at : Nat
  userName : Option String := none
deriving DecidableEq, Repr

/-- Shorthand for a check-in row. -/
def evIn (u : String) (t : Nat) : AttendanceEvent :=
  { rfid_uid := u, Check := CheckKind.IN, created_at := t }

/-- Shorthand for a check-out row. -/
def evOut (u : String) (t : Nat) : AttendanceEvent :=
  { rfid_uid := u, Check := CheckKind.OUT, created_at := t }

/-- Per-identity entry of the `userStatus` object built by the
`/analytics/current` replay loop. -/
structure UserState where
  status : CheckKind
  time_in : Nat
  userName : Option String
deriving DecidableEq, Repr

/-! ## Occupancy Resolver (`GET /analytics/current`, src/api/index.js:54-79)

The handler iterates over today's rows in fetched order:
  - `IN`: `userStatus[uid] = {status:'IN', time_in: created_at, name}`,
  - `OUT`: `if (userStatus[uid]?.status === 'IN') userStatus[uid].status = 'OUT'`,
then collects every entry still `'IN'`. No sort is applied to the rows
before this loop. -/

/-- One iteration of the `todayAttendance.forEach` replay loop. -/
def applyEvent (userStatus : List (String × UserState)) (entry : AttendanceEvent) :
    List (String × UserState) :=
  match entry.Check with
  | CheckKind.IN =>
      setKey userStatus entry.rfid_uid
        { status := CheckKind.IN, time_in := entry.created_at, userName := entry.userName }
  | CheckKind.OUT =>
      match lookupKey userStatus entry.rfid_uid with
      | some st =>
          if st.status = CheckKind.IN then
            setKey userStatus entry.rfid_uid { st with status := CheckKind.OUT }
          else userStatus
      | none => userStatus

/-- The full replay loop: the `userStatus` object after processing the
event rows in the order they were supplied. -/
def replay (events : List AttendanceEvent) : List (String × UserState) :=
  events.foldl applyEvent []

/-- The `peoplePresent` list: entries of `userStatus` whose status is
still `'IN'` after replay. -/
def peoplePresent (events : List AttendanceEvent) : List (String × UserState) :=
  (replay events).filter (fun p => decide (p.2.status = CheckKind.IN))

/-- The `count` field of the `/analytics/current` response. -/
def currentCount (events : List AttendanceEvent) : Nat :=
  (peoplePresent events).length

/-- Identity tags of the present set. -/
def presentTags (events : List AttendanceEvent) : List String :=
  (peoplePresent events).map Prod.fst

/-- Whether identity `u` ends the replay marked present. -/
def isPresent (events : List AttendanceEvent) (u : String) : Bool :=
  match lookupKey (replay events) u with
  | some st => decide (st.status = CheckKind.IN)
  | none => false

/-- The replay loop restricted to a single identity: how one identity's
`userStatus` entry evolves under its own events (other identities'
events never touch it). -/
def step1 (st : Option UserState) (entry : AttendanceEvent) : Option UserState :=
  match entry.Check with
  | CheckKind.IN =>
      some { status := CheckKind.IN, time_in := entry.created_at, userName := entry.userName }
  | CheckKind.OUT =>
      match st with
      | some s =>
          if s.status = CheckKind.IN then some { s with status := CheckKind.OUT } else some s
      | none => none

theorem lookupKey_applyEvent (m : List (String × UserState)) (e : AttendanceEvent) (u : String) :
    lookupKey (applyEvent m e) u =
      if e.rfid_uid = u then step1 (lookupKey m u) e else lookupKey m u := by
  cases hc : e.Check with
  | IN =>
      simp [applyEvent, hc, step1, lookupKey_setKey]
  | OUT =>
      cases hl : lookupKey m e.rfid_uid with
      | none =>
          by_cases h : e.rfid_uid = u
          · subst h
            simp [applyEvent, hc, hl, step1]
          · simp [applyEvent, hc, hl, step1, h]
      | some s =>
          by_cases hin : s.status = CheckKind.IN
          · by_cases h : e.rfid_uid = u
            · subst h
              simp [applyEvent, hc, hl, hin, step1, lookupKey_setKey]
            · simp [applyEvent, hc, hl, hin, step1, h, lookupKey_setKey]
          · by_cases h : e.rfid_uid = u
            · subst h
              simp [applyEvent, hc, hl, hin, step1]
            · simp [applyEvent, hc, hl, hin, step1, h]

theorem lookupKey_foldl_applyEvent (events : List AttendanceEvent)
    (m : List (String × UserState)) (u : String) :
    lookupKey (events.foldl applyEvent m) u =
      (events.filter (fun e => decide (e.rfid_uid = u))).foldl step1 (lookupKey m u) := by
  induction events generalizing m with
  | nil => simp
  | cons e rest ih =>
      by_cases h : e.rfid_uid = u <;>
        simp [List.filter_cons, h, lookupKey_applyEvent, ih]

/-- The entry an identity holds after replay is determined by folding its
own events, in order, through the single-identity transition. -/
theorem lookupKey_replay (events : List AttendanceEvent) (u : String) :
    lookupKey (replay events) u =
      (events.filter (fun e => decide (e.rfid_uid = u))).foldl step1 none := by
  simpa [lookupKey] using lookupKey_foldl_applyEvent events [] u

theorem nodupKeys_applyEvent (m : List (String × UserState)) (e : AttendanceEvent)
    (hm : (m.map Prod.fst).Nodup) : ((applyEvent m e).map Prod.fst).Nodup := by
  cases hc : e.Check with
  | IN => simpa [applyEvent, hc] using nodupKeys_setKey m _ _ hm
  | OUT =>
      cases hl : lookupKey m e.rfid_uid with
      | none => simpa [applyEvent, hc, hl] using hm
      | some s =>
          by_cases hin : s.status = CheckKind.IN
          · simpa [applyEvent, hc, hl, hin] using nodupKeys_setKey m _ _ hm
          · simpa [applyEvent, hc, hl, hin] using hm

theorem nodupKeys_replay (events : List AttendanceEvent) :
    ((replay events).map Prod.fst).Nodup := by
  suffices h : ∀ m : List (String × UserState), (m.map Prod.fst).Nodup →
      ((events.foldl applyEvent m).map Prod.fst).Nodup by
    exact h [] (by simp)
  induction events with
  | nil => intro m hm; simpa using hm
  | cons e rest ih =>
      intro m hm
      exact ih _ (nodupKeys_applyEvent m e hm)

/-- After folding an identity's own events, its entry is marked `IN`
exactly when the last of those events is an `IN`. -/
theorem foldl_step1_status (l : List AttendanceEvent) :
    ((l.foldl step1 none).map UserState.status = some CheckKind.IN) ↔
      l.getLast?.map AttendanceEvent.Check = some CheckKind.IN := by
  induction l using List.reverseRecOn with
  | nil => simp
  | append_singleton l e ih =>
      rw [List.foldl_append, List.getLast?_concat]
      cases hc : e.Check with
      | IN => simp [step1, hc]
      | OUT =>
          cases hst : l.foldl step1 none with
          | none => simp [step1, hc]
          | some s =>
              by_cases hin : s.status = CheckKind.IN
              · simp [step1, hc, hin]
              · simp [step1, hc, hin]

/-- Identity `u` is present after replay exactly when the last of its own
events (in the replayed order) is an `IN`. -/
theorem isPresent_iff_getLast (es : List AttendanceEvent) (u : String) :
    isPresent es u = true ↔
      ((es.filter (fun e => decide (e.rfid_uid = u))).getLast?).map AttendanceEvent.Check
        = some CheckKind.IN := by
  rw [← foldl_step1_status, ← lookupKey_replay]
  cases h : lookupKey (replay es) u with
  | none => simp [isPresent, h]
  | some st =>
      by_cases hin : st.status = CheckKind.IN <;> simp [isPresent, h, hin]

/-- On a check-in, the replay step installs a fresh `IN` entry. -/
theorem step1_in (st : Option UserState) (e : AttendanceEvent)
    (hc : e.Check = CheckKind.IN) :
    step1 st e =
      some { status := CheckKind.IN, time_in := e.created_at, userName := e.userName } := by
  simp [step1, hc]

/-- On a check-out, the replay step never changes the stored `time_in`. -/
theorem step1_out_time (st : Option UserState) (e : AttendanceEvent)
    (hc : e.Check = CheckKind.OUT) :
    (step1 st e).map UserState.time_in = st.map UserState.time_in := by
  cases st with
  | none => simp [step1, hc]
  | some s => by_cases hin : s.status = CheckKind.IN <;> simp [step1, hc, hin]

/-- The `time_in` an identity's entry holds after folding its own events is
the timestamp of the last `IN` among them (`OUT` events never touch it). -/
theorem foldl_step1_time_in (l : List AttendanceEvent) :
    ∀ st : UserState, l.foldl step1 none = some st →
      ((l.filter (fun e => decide (e.Check = CheckKind.IN))).getLast?).map
          AttendanceEvent.created_at = some st.time_in := by
  induction l using List.reverseRecOn with
  | nil => intro st h; simp at h
  | append_singleton l e ih =>
      intro st h
      rw [List.foldl_append] at h
      simp only [List.foldl_cons, List.foldl_nil] at h
      cases hc : e.Check with
      | IN =>
          rw [step1_in _ e hc] at h
          injection h with h1
          subst h1
          rw [List.filter_append]
          simp [List.filter_cons, hc, List.getLast?_concat]
      | OUT =>
          rw [List.filter_append]
          simp only [List.filter_cons, hc]
          rw [if_neg (by simp)]
          simp only [List.filter_nil, List.append_nil]
          cases hst : l.foldl step1 none with
          | none =>
              rw [hst] at h
              rw [show step1 none e = none by simp [step1, hc]] at h
              exact absurd h (by simp)
          | some s =>
              rw [hst] at h
              have htime := step1_out_time (some s) e hc
              rw [h] at htime
              simp only [Option.map_some'] at htime
              injection htime with h2
              rw [h2]
              exact ih s hst

/-- An identity tag is in the `peoplePresent` output exactly when its
`userStatus` entry is marked present. -/
theorem mem_presentTags_iff (es : List AttendanceEvent) (u : String) :
    u ∈ presentTags es ↔ isPresent es u = true := by
  constructor
  · intro h
    rcases List.mem_map.mp h with ⟨⟨k, st⟩, hmem, hk⟩
    rcases List.mem_filter.mp hmem with ⟨hmem', hstat⟩
    have : lookupKey (replay es) k = some st :=
      lookupKey_eq_some_of_mem_nodup _ _ _ (nodupKeys_replay es) hmem'
    subst hk
    simp only [isPresent, this]
    exact hstat
  · intro h
    cases hl : lookupKey (replay es) u with
    | none => simp [isPresent, hl] at h
    | some st =>
        simp only [isPresent, hl] at h
        exact List.mem_map.mpr ⟨(u, st),
          List.mem_filter.mpr ⟨mem_of_lookupKey_eq_some _ _ _ hl, h⟩, rfl⟩

/-! ## "Today" filter (`GET /analytics/current`, src/api/index.js:46-49)

`const todayDate = new Date().toISOString().split('T')[0];`
`attendance.filter(entry => new Date(entry.created_at).toISOString().startsWith(todayDate))`

`toISOString` renders the timestamp in UTC, so two timestamps share the
10-character date prefix exactly when they lie in the same UTC day; with
timestamps as epoch seconds that day is the index `t / 86400`. -/

/-- UTC calendar day index of an epoch-seconds timestamp: the model of
`new Date(t).toISOString().split('T')[0]`. -/
def utcDay (t : Nat) : Nat := t / 86400

/-- Calendar day index under the lab's IST offset (UTC+5:30 = 19800 s);
used only to state what the code does NOT do. -/
def istDay (t : Nat) : Nat := (t + 19800) / 86400

/-- The filter predicate of `/analytics/current`: the event's UTC ISO date
prefix equals today's. -/
def isTodayEntry (createdAt nowTime : Nat) : Bool :=
  decide (utcDay createdAt = utcDay nowTime)

/-- `todayAttendance` as computed by the handler. -/
def todayAttendance (attendance : List AttendanceEvent) (nowTime : Nat) :
    List AttendanceEvent :=
  attendance.filter (fun e => isTodayEntry e.created_at nowTime)

/-- The whole `GET /analytics/current` computation on a fetched event list:
filter to today's UTC date, replay, report count and present users. -/
def analyticsCurrent (attendance : List AttendanceEvent) (nowTime : Nat) :
    Nat × List (String × UserState) :=
  (currentCount (todayAttendance attendance nowTime),
   peoplePresent (todayAttendance attendance nowTime))

/-! ## Rush-hour histogram (`GET /analytics/rush-hours`, src/api/index.js:114-133)

The handler iterates over ALL fetched rows (`fetchAttendanceToday` issues
no date filter and the loop applies none), increments
`hourlyCheckIns[hour]` for EVERY row (there is no `Check === 'IN'` test),
then maps `Object.keys` (numeric keys, so ascending hour order) to
buckets and sorts them descending by count (`Array.prototype.sort` is
stable). `getHours()` is the server's local hour; the deployment clock
runs UTC. -/

/-- Hour-of-day of an epoch-seconds timestamp: `new Date(t).getHours()`
on a UTC server clock. -/
def hourOf (t : Nat) : Nat := t % 86400 / 3600

/-- `hourlyCheckIns[h]`: the number of fetched rows (of any kind) whose
timestamp falls in hour `h`. -/
def hourlyCount (attendance : List AttendanceEvent) (h : Nat) : Nat :=
  (attendance.filter (fun e => decide (hourOf e.created_at = h))).length

/-- The `sortedHours` response: non-empty hour buckets in ascending hour
order, stably sorted descending by count. -/
def rushHours (attendance : List AttendanceEvent) : List (Nat × Nat) :=
  (((List.range 24).filter (fun h => decide (0 < hourlyCount attendance h))).map
      (fun h => (h, hourlyCount attendance h))).mergeSort
    (fun a b => decide (b.2 ≤ a.2))

/-! ## Weekly aggregation (`GET /analytics/weekly`, src/api/index.js:96-108)

`occupancy[date]` is a `Set` of `rfid_uid`s per ISO date; every fetched
row (IN or OUT alike) adds its uid to its date's set; the response maps
each date key to the set's size. -/

/-- `Set.prototype.add`: append the uid if it is not already a member. -/
def insertDistinct (uids : List String) (uid : String) : List String :=
  if uids.contains uid then uids else uids ++ [uid]

/-- One iteration of the `data.forEach` grouping loop:
`if (!occupancy[date]) occupancy[date] = new Set(); occupancy[date].add(uid)`. -/
def weeklyStep (occupancy : List (Nat × List String)) (e : AttendanceEvent) :
    List (Nat × List String) :=
  let date := utcDay e.created_at
  match lookupKey occupancy date with
  | none => setKey occupancy date (insertDistinct [] e.rfid_uid)
  | some uids => setKey occupancy date (insertDistinct uids e.rfid_uid)

/-- The `occupancy` object after the grouping loop. -/
def weeklyFold (data : List AttendanceEvent) : List (Nat × List String) :=
  data.foldl weeklyStep []

/-- The `weeklyData` response: `(date, occupancy_count)` per date key. -/
def weeklyData (data : List AttendanceEvent) : List (Nat × Nat) :=
  (weeklyFold data).map (fun p => (p.1, p.2.length))

/-! ## `GET /api/attendance` (src/api/index.js:135-151)

`if (!start_date || !end_date) return res.status(400)...` and only then
the store read; an empty (or missing) result is a 404, a store error a
500, otherwise 200 with the rows. The store is modelled as an oracle and
the handler also reports how many store reads it issued. -/

/-- JS falsiness of an optional query parameter (`undefined` or `""`). -/
def isBlank : Option String → Bool
  | none => true
  | some s => s.isEmpty

/-- Responses of `GET /api/attendance`. -/
inductive AttResp where
  | badRequest
  | notFound
  | okData (events : List AttendanceEvent)
  | serverError (msg : String)
deriving DecidableEq, Repr

/-- The handler: the returned `Nat` counts store reads issued. -/
def apiAttendance (start_date end_date : Option String)
    (store : String → String → Except String (List AttendanceEvent)) :
    AttResp × Nat :=
  if isBlank start_date || isBlank end_date then (AttResp.badRequest, 0)
  else
    match store (start_date.getD "") (end_date.getD "") with
    | Except.error m => (AttResp.serverError m, 1)
    | Except.ok [] => (AttResp.notFound, 1)
    | Except.ok evs => (AttResp.okData evs, 1)

/-! ## Checkout Closer

`POST /force-checkout` (src/api/index.js:154-176): fetches the present
users from `/analytics/current`, then `Promise.all` over one Supabase
`POST` per user, each with `Check:"OUT"` and `created_at: now`. All the
posts are issued eagerly (`users.map` creates every promise before
`Promise.all` settles), but one rejection rejects the whole `Promise.all`
and the catch block answers 500 with no per-identity report.

`src/api/cron/auto-checkout.js`: checks the `Authorization` header
against `Bearer ${CRON_SECRET}` FIRST and answers 401 before any other
work on mismatch; otherwise fetches the present users and runs a
sequential `for` loop with a per-user `try/catch`, logging one
success/failure line per user, and answers success with the full log.

`GET /cron/auto-checkout` (src/api/index.js:232-266): same fetch, but no
auth check at all, and `Promise.all` without a per-user catch. -/

/-- A present user as returned by `/analytics/current`. -/
structure PresentUser where
  rfid_uid : String
  userName : Option String := none
deriving DecidableEq, Repr

/-- Whether a store write succeeded. -/
def isOk (r : Except String Unit) : Bool :=
  match r with
  | Except.ok _ => true
  | Except.error _ => false

/-- The synthetic `OUT` rows the Closer writes: one per present identity,
all stamped with the same `now`. -/
def closerOuts (events : List AttendanceEvent) (nowTime : Nat) :
    List AttendanceEvent :=
  (peoplePresent events).map
    (fun p => { rfid_uid := p.1, Check := CheckKind.OUT, created_at := nowTime })

/-- `POST /force-checkout`: `(status, body, writesAttempted)`; `w` gives
each identity's write outcome. -/
def forceCheckout (users : List PresentUser) (w : String → Except String Unit) :
    Nat × String × Nat :=
  if users.all (fun u => isOk (w u.rfid_uid)) then
    (200, toString users.length ++ " users force-checked out.", users.length)
  else
    (500, "Force checkout failed", users.length)

/-- The sequential per-user loop of the serverless handler: one log line
per user carrying that user's own write outcome (the `✅ ... checked out`
or `❌ ...: err.message` line), failures caught per user. -/
def autoCheckoutLoop (users : List PresentUser) (w : String → Except String Unit) :
    List (String × Except String Unit) :=
  users.foldl (fun logs u => logs ++ [(u.rfid_uid, w u.rfid_uid)]) []

/-- Outcome of a cron-style handler run: HTTP status, store reads and
writes issued, and the per-identity log lines. -/
structure CronOutcome where
  status : Nat
  storeReads : Nat
  storeWrites : Nat
  logs : List (String × Except String Unit)
deriving Repr

/-- The serverless scheduled handler (src/api/cron/auto-checkout.js). -/
def cronAutoCheckout (authorization : Option String) (secret : String)
    (fetchPresent : Except String (List PresentUser))
    (w : String → Except String Unit) : CronOutcome :=
  if authorization ≠ some ("Bearer " ++ secret) then
    { status := 401, storeReads := 0, storeWrites := 0, logs := [] }
  else
    match fetchPresent with
    | Except.error _ => { status := 500, storeReads := 1, storeWrites := 0, logs := [] }
    | Except.ok users =>
        if users.length = 0 then
          { status := 200, storeReads := 1, storeWrites := 0, logs := [] }
        else
          { status := 200, storeReads := 1, storeWrites := users.length,
            logs := autoCheckoutLoop users w }

/-- The express `GET /cron/auto-checkout` route (src/api/index.js:232-266):
no auth check; `Promise.all` without per-user catch, so one failed write
turns the whole response into a 500 with no per-identity report. -/
def expressCronAutoCheckout (authorization : Option String)
    (fetchPresent : Except String (List PresentUser))
    (w : String → Except String Unit) : CronOutcome :=
  match fetchPresent with
  | Except.error _ => { status := 500, storeReads := 1, storeWrites := 0, logs := [] }
  | Except.ok users =>
      if users.all (fun u => isOk (w u.rfid_uid)) then
        { status := 200, storeReads := 1, storeWrites := users.length,
          logs := users.map (fun u => (u.rfid_uid, w u.rfid_uid)) }
      else
        { status := 500, storeReads := 1, storeWrites := users.length, logs := [] }

/-! ## Lemmas about the weekly grouping loop -/

theorem lookupKey_eq_none_iff {κ β : Type} [DecidableEq κ]
    (m : List (κ × β)) (k : κ) :
    lookupKey m k = none ↔ k ∉ m.map Prod.fst := by
  induction m with
  | nil => simp [lookupKey]
  | cons p rest ih =>
      obtain ⟨k0, v0⟩ := p
      by_cases h0 : k0 = k
      · subst h0
        simp [lookupKey]
      · simp [lookupKey, h0, ih, Ne.symm h0]

theorem contains_iff_mem (l : List String) (a : String) :
    l.contains a = true ↔ a ∈ l := by
  simp

theorem mem_insertDistinct (uids : List String) (uid x : String) :
    x ∈ insertDistinct uids uid ↔ x ∈ uids ∨ x = uid := by
  by_cases h : uids.contains uid = true
  · rw [contains_iff_mem] at h
    simp only [insertDistinct]
    rw [if_pos (by rwa [contains_iff_mem])]
    constructor
    · exact Or.inl
    · rintro (hx | rfl)
      · exact hx
      · exact h
  · simp only [insertDistinct]
    rw [if_neg h]
    simp

theorem nodup_insertDistinct (uids : List String) (uid : String)
    (h : uids.Nodup) : (insertDistinct uids uid).Nodup := by
  by_cases hc : uid ∈ uids
  · simpa [insertDistinct, hc] using h
  · simp [insertDistinct, hc, List.nodup_append, h]

/-- Set-insert fold of a whole uid list. -/
def foldInsert (uids0 : List String) (l : List AttendanceEvent) : List String :=
  l.foldl (fun uids e => insertDistinct uids e.rfid_uid) uids0

theorem mem_foldInsert (l : List AttendanceEvent) :
    ∀ (uids0 : List String) (x : String),
      x ∈ foldInsert uids0 l ↔ x ∈ uids0 ∨ x ∈ l.map AttendanceEvent.rfid_uid := by
  induction l with
  | nil => simp [foldInsert]
  | cons e rest ih =>
      intro uids0 x
      simp only [foldInsert, List.foldl_cons]
      rw [show (List.foldl (fun uids e => insertDistinct uids e.rfid_uid)
            (insertDistinct uids0 e.rfid_uid) rest) =
          foldInsert (insertDistinct uids0 e.rfid_uid) rest from rfl]
      rw [ih, mem_insertDistinct]
      simp only [List.map_cons, List.mem_cons]
      tauto

theorem nodup_foldInsert (l : List AttendanceEvent) :
    ∀ uids0 : List String, uids0.Nodup → (foldInsert uids0 l).Nodup := by
  induction l with
  | nil => intro uids0 h; simpa [foldInsert] using h
  | cons e rest ih =>
      intro uids0 h
      exact ih _ (nodup_insertDistinct uids0 e.rfid_uid h)

/-- Single-date view of one grouping step. -/
def dateStep (o : Option (List String)) (e : AttendanceEvent) : Option (List String) :=
  some (insertDistinct (o.getD []) e.rfid_uid)

theorem lookupKey_weeklyStep (occ : List (Nat × List String)) (e : AttendanceEvent) (d : Nat) :
    lookupKey (weeklyStep occ e) d =
      if utcDay e.created_at = d then dateStep (lookupKey occ d) e
      else lookupKey occ d := by
  by_cases hd : utcDay e.created_at = d
  · subst hd
    cases hl : lookupKey occ (utcDay e.created_at) with
    | none => simp [weeklyStep, hl, lookupKey_setKey, dateStep]
    | some uids => simp [weeklyStep, hl, lookupKey_setKey, dateStep]
  · cases hl : lookupKey occ (utcDay e.created_at) with
    | none => simp [weeklyStep, hl, lookupKey_setKey, hd]
    | some uids => simp [weeklyStep, hl, lookupKey_setKey, hd]

theorem lookupKey_foldl_weeklyStep (data : List AttendanceEvent)
    (occ : List (Nat × List String)) (d : Nat) :
    lookupKey (data.foldl weeklyStep occ) d =
      (data.filter (fun e => decide (utcDay e.created_at = d))).foldl dateStep
        (lookupKey occ d) := by
  induction data generalizing occ with
  | nil => simp
  | cons e rest ih =>
      by_cases h : utcDay e.created_at = d <;>
        simp [List.filter_cons, h, lookupKey_weeklyStep, ih]

theorem foldl_dateStep_some (l : List AttendanceEvent) :
    ∀ uids0 : List String, l.foldl dateStep (some uids0) = some (foldInsert uids0 l) := by
  induction l with
  | nil => intro uids0; simp [foldInsert]
  | cons e rest ih =>
      intro uids0
      simp only [List.foldl_cons, dateStep, Option.getD]
      exact ih (insertDistinct uids0 e.rfid_uid)

/-- The set stored under a date key in the `occupancy` object is exactly
the distinct uids of that date's rows (absent when the date has no row). -/
theorem lookupKey_weeklyFold (data : List AttendanceEvent) (d : Nat) :
    lookupKey (weeklyFold data) d =
      match data.filter (fun e => decide (utcDay e.created_at = d)) with
      | [] => none
      | e :: rest => some (foldInsert (insertDistinct [] e.rfid_uid) rest) := by
  rw [weeklyFold, lookupKey_foldl_weeklyStep]
  cases hf : data.filter (fun e => decide (utcDay e.created_at = d)) with
  | nil => simp [lookupKey]
  | cons e rest =>
      simp only [List.foldl_cons, lookupKey, dateStep, Option.getD]
      exact foldl_dateStep_some rest (insertDistinct [] e.rfid_uid)

theorem nodupKeys_weeklyFold (data : List AttendanceEvent) :
    ((weeklyFold data).map Prod.fst).Nodup := by
  suffices h : ∀ occ : List (Nat × List String), (occ.map Prod.fst).Nodup →
      ((data.foldl weeklyStep occ).map Prod.fst).Nodup by
    exact h [] (by simp)
  induction data with
  | nil => intro occ hocc; simpa using hocc
  | cons e rest ih =>
      intro occ hocc
      refine ih _ ?_
      cases hl : lookupKey occ (utcDay e.created_at) with
      | none => simpa [weeklyStep, hl] using nodupKeys_setKey occ _ _ hocc
      | some uids => simpa [weeklyStep, hl] using nodupKeys_setKey occ _ _ hocc

/-! ## Lemmas about the Checkout Closer's synthetic writes -/

theorem check_of_mem_closerOuts (es : List AttendanceEvent) (nowTime : Nat) :
    ∀ e ∈ closerOuts es nowTime, e.Check = CheckKind.OUT := by
  intro e he
  rcases List.mem_map.mp he with ⟨p, _, rfl⟩
  rfl

theorem isPresent_of_mem_closerOuts (es : List AttendanceEvent) (nowTime : Nat) :
    ∀ e ∈ closerOuts es nowTime, isPresent es e.rfid_uid = true := by
  intro e he
  rcases List.mem_map.mp he with ⟨p, hp, rfl⟩
  exact (mem_presentTags_iff es p.1).mp (List.mem_map.mpr ⟨p, hp, rfl⟩)

theorem exists_closerOut_of_isPresent (es : List AttendanceEvent) (nowTime : Nat)
    (u : String) (h : isPresent es u = true) :
    ∃ e ∈ closerOuts es nowTime, e.rfid_uid = u := by
  rcases List.mem_map.mp ((mem_presentTags_iff es u).mpr h) with ⟨p, hp, hpu⟩
  exact ⟨{ rfid_uid := p.1, Check := CheckKind.OUT, created_at := nowTime },
    List.mem_map.mpr ⟨p, hp, rfl⟩, hpu⟩

/-- After the Closer's synthetic `OUT`s are appended, nobody is present. -/
theorem isPresent_append_closerOuts (es : List AttendanceEvent) (nowTime : Nat)
    (u : String) : isPresent (es ++ closerOuts es nowTime) u = false := by
  rw [Bool.eq_false_iff]
  intro htrue
  rw [isPresent_iff_getLast, List.filter_append] at htrue
  by_cases hA : isPresent es u = true
  · obtain ⟨e, he, heu⟩ := exists_closerOut_of_isPresent es nowTime u hA
    have hne : (closerOuts es nowTime).filter (fun e => decide (e.rfid_uid = u)) ≠ [] := by
      intro hnil
      rw [List.filter_eq_nil_iff] at hnil
      exact hnil e he (by simp [heu])
    rw [List.getLast?_append_of_ne_nil _ hne] at htrue
    cases hg : ((closerOuts es nowTime).filter (fun e => decide (e.rfid_uid = u))).getLast? with
    | none => rw [hg] at htrue; simp at htrue
    | some x =>
        rw [hg] at htrue
        have hx := List.mem_of_mem_getLast? hg
        have hout : x.Check = CheckKind.OUT :=
          check_of_mem_closerOuts es nowTime x (List.mem_filter.mp hx).1
        rw [Option.map_some', hout] at htrue
        simp at htrue
  · have hnil : (closerOuts es nowTime).filter (fun e => decide (e.rfid_uid = u)) = [] := by
      rw [List.filter_eq_nil_iff]
      intro e he hd
      refine hA ?_
      have heu : e.rfid_uid = u := by simpa using hd
      exact heu ▸ isPresent_of_mem_closerOuts es nowTime e he
    rw [hnil, List.append_nil] at htrue
    exact hA ((isPresent_iff_getLast es u).mpr htrue)

/-- The whole present set is empty after the synthetic `OUT`s. -/
theorem peoplePresent_append_closerOuts (es : List AttendanceEvent) (nowTime : Nat) :
    peoplePresent (es ++ closerOuts es nowTime) = [] := by
  rw [peoplePresent, List.filter_eq_nil_iff]
  rintro ⟨k, v⟩ hmem hstat
  have hlk : lookupKey (replay (es ++ closerOuts es nowTime)) k = some v :=
    lookupKey_eq_some_of_mem_nodup _ _ _ (nodupKeys_replay _) hmem
  have htrue : isPresent (es ++ closerOuts es nowTime) k = true := by
    simp only [isPresent, hlk]
    exact hstat
  rw [isPresent_append_closerOuts] at htrue
  exact Bool.false_ne_true htrue

/-! ## Claim theorems -/

/-- C1: replayed in ascending timestamp order, the resolver's present set
contains exactly the identity tags whose latest same-day event is `IN`
with no subsequent `OUT`; so `IN` then `OUT` leaves the tag absent, only
`IN` present, only `OUT` absent, and the empty event list gives an empty
present set with count 0. -/
theorem present_set_latest_event_in :
    (∀ es : List AttendanceEvent,
        es.Pairwise (fun a b => a.created_at ≤ b.created_at) →
        ∀ u : String,
          u ∈ presentTags es ↔
            ((es.filter (fun e => decide (e.rfid_uid = u))).getLast?).map
                AttendanceEvent.Check = some CheckKind.IN)
    ∧ peoplePresent [] = [] ∧ currentCount [] = 0
    ∧ isPresent [evIn "A" 0, evOut "A" 1] "A" = false
    ∧ isPresent [evIn "A" 0] "A" = true
    ∧ isPresent [evOut "A" 0] "A" = false := by
  refine ⟨?_, rfl, rfl, by decide, by decide, by decide⟩
  intro es _ u
  rw [mem_presentTags_iff, isPresent_iff_getLast]

/-- Witness for C1 at a concrete timestamp-sorted day. -/
theorem present_set_latest_event_in_witness :
    "A" ∈ presentTags [evIn "A" 0, evOut "B" 5] ↔
      (([evIn "A" 0, evOut "B" 5].filter (fun e => decide (e.rfid_uid = "A"))).getLast?).map
          AttendanceEvent.Check = some CheckKind.IN :=
  present_set_latest_event_in.1 [evIn "A" 0, evOut "B" 5] (by decide) "A"

/-- C2 is refuted: the handler replays the fetched rows as supplied (no
sort before replay), so two orderings of the same multiset of events give
different present sets: `IN(A)@0, OUT(A)@1` supplied OUT-first leaves A
present, supplied in timestamp order leaves A absent. -/
theorem replay_order_dependent :
    List.Perm [evOut "A" 1, evIn "A" 0] [evIn "A" 0, evOut "A" 1]
    ∧ isPresent [evOut "A" 1, evIn "A" 0] "A" = true
    ∧ isPresent [evIn "A" 0, evOut "A" 1] "A" = false :=
  ⟨List.Perm.swap _ _ _, by decide, by decide⟩

/-- C3 is refuted: the rush-hour loop counts every fetched row, so a lone
`OUT` event still produces an hour bucket, and a row from a previous day
is counted as well (no `Check === IN` test, no today filter). -/
theorem rushHours_counts_every_event :
    rushHours [evOut "A" (9 * 3600)] = [(9, 1)]
    ∧ rushHours [evIn "A" (86400 + 9 * 3600)] = [(9, 1)] := by
  constructor
  · have h : ((List.range 24).filter
        (fun h => decide (0 < hourlyCount [evOut "A" (9 * 3600)] h))).map
          (fun h => (h, hourlyCount [evOut "A" (9 * 3600)] h)) = [(9, 1)] := by decide
    rw [rushHours, h]
    simp [List.mergeSort]
  · have h : ((List.range 24).filter
        (fun h => decide (0 < hourlyCount [evIn "A" (86400 + 9 * 3600)] h))).map
          (fun h => (h, hourlyCount [evIn "A" (86400 + 9 * 3600)] h)) = [(9, 1)] := by decide
    rw [rushHours, h]
    simp [List.mergeSort]

/-- Write oracle that fails exactly for identity "B". -/
def wFailB : String → Except String Unit :=
  fun uid => if uid = "B" then Except.error "write failed" else Except.ok ()

/-- C4 is refuted for `POST /force-checkout`: with present users A and B
and B's write failing, the response is an overall 500 with no
per-identity report (though both writes were issued: attempted = 2). -/
theorem forceCheckout_escalates_partial_failure :
    forceCheckout [{ rfid_uid := "A" }, { rfid_uid := "B" }] wFailB
      = (500, "Force checkout failed", 2) := by decide

/-- C4 amended: the serverless cron loop attempts every present identity's
write regardless of the other writes' outcomes, logs exactly one outcome
per identity — that identity's own write result — and the handler status
stays 200. -/
theorem cron_loop_partial_failure_tolerant :
    ∀ (users : List PresentUser) (w : String → Except String Unit) (secret : String),
      autoCheckoutLoop users w = users.map (fun u => (u.rfid_uid, w u.rfid_uid))
      ∧ (cronAutoCheckout (some ("Bearer " ++ secret)) secret
          (Except.ok users) w).status = 200 := by
  intro users w secret
  constructor
  · suffices h : ∀ acc : List (String × Except String Unit),
        users.foldl (fun logs u => logs ++ [(u.rfid_uid, w u.rfid_uid)]) acc
          = acc ++ users.map (fun u => (u.rfid_uid, w u.rfid_uid)) by
      simpa [autoCheckoutLoop] using h []
    induction users with
    | nil => intro acc; simp
    | cons u rest ih => intro acc; simp [ih]
  · by_cases h : users.length = 0 <;> simp [cronAutoCheckout, h]

/-- C5 is refuted as stated: with both dates present but start after end
the handler does not answer 400: it issues the store read (count 1) and
answers 404 on the empty result. -/
theorem apiAttendance_no_date_order_check :
    apiAttendance (some "2025-01-02") (some "2025-01-01") (fun _ _ => Except.ok [])
      = (AttResp.notFound, 1) := by decide

/-- C5 amended: a missing or empty date parameter yields 400 before any
store read; the handler never validates the ordering of the two dates. -/
theorem apiAttendance_blank_dates_400 :
    ∀ (s e : Option String) (store : String → String → Except String (List AttendanceEvent)),
      (isBlank s || isBlank e) = true →
      apiAttendance s e store = (AttResp.badRequest, 0) := by
  intro s e store h
  simp [apiAttendance, h]

/-- Witness for C5's amended theorem: start_date missing. -/
theorem apiAttendance_blank_dates_400_witness :
    apiAttendance none (some "2025-01-01") (fun _ _ => Except.ok [])
      = (AttResp.badRequest, 0) :=
  apiAttendance_blank_dates_400 none (some "2025-01-01") (fun _ _ => Except.ok []) (by decide)

/-- C6: whatever entry an identity holds after replay, its `time_in` is the
timestamp of the latest `IN` among that identity's events (so repeated
`IN`s keep only the latest), and the re-entry sequence
`IN@10, OUT@20, IN@30` leaves A present with `time_in = 30`. -/
theorem last_in_timestamp_retained :
    (∀ (es : List AttendanceEvent) (u : String) (st : UserState),
        lookupKey (replay es) u = some st →
        ((es.filter (fun e =>
            decide (e.Check = CheckKind.IN) && decide (e.rfid_uid = u))).getLast?).map
            AttendanceEvent.created_at = some st.time_in)
    ∧ isPresent [evIn "A" 10, evOut "A" 20, evIn "A" 30] "A" = true
    ∧ lookupKey (replay [evIn "A" 10, evOut "A" 20, evIn "A" 30]) "A" =
        some { status := CheckKind.IN, time_in := 30, userName := none } := by
  refine ⟨?_, by decide, by decide⟩
  intro es u st h
  rw [lookupKey_replay] at h
  have ht := foldl_step1_time_in (es.filter (fun e => decide (e.rfid_uid = u))) st h
  rw [List.filter_filter] at ht
  exact ht

/-- Witness for C6's general part at a one-event list. -/
theorem last_in_timestamp_retained_witness :
    (([evIn "A" 10].filter (fun e =>
        decide (e.Check = CheckKind.IN) && decide (e.rfid_uid = "A"))).getLast?).map
        AttendanceEvent.created_at
      = some (UserState.mk CheckKind.IN 10 none).time_in :=
  last_in_timestamp_retained.1 [evIn "A" 10] "A" (UserState.mk CheckKind.IN 10 none) (by decide)

/-- The per-date uid set's size is the number of distinct uids of the
date's rows. -/
theorem length_foldInsert_eq_card (l : List AttendanceEvent) (e : AttendanceEvent) :
    (foldInsert (insertDistinct [] e.rfid_uid) l).length =
      ((e :: l).map AttendanceEvent.rfid_uid).toFinset.card := by
  have hnd : (foldInsert (insertDistinct [] e.rfid_uid) l).Nodup :=
    nodup_foldInsert l _ (by simp [insertDistinct])
  have hmem : ∀ x, x ∈ foldInsert (insertDistinct [] e.rfid_uid) l ↔
      x ∈ (e :: l).map AttendanceEvent.rfid_uid := by
    intro x
    rw [mem_foldInsert, mem_insertDistinct]
    simp only [List.map_cons, List.mem_cons]
    tauto
  have hfs : (foldInsert (insertDistinct [] e.rfid_uid) l).toFinset =
      ((e :: l).map AttendanceEvent.rfid_uid).toFinset := by
    apply Finset.ext
    intro x
    rw [List.mem_toFinset, List.mem_toFinset, hmem]
  rw [← List.toFinset_card_of_nodup hnd, hfs]

/-- Three days of demo events with 2, 1 and 3 distinct identities. -/
def demoWeek : List AttendanceEvent :=
  [evIn "A" 0, evOut "A" 100, evIn "B" 200,
   evIn "C" 86400,
   evIn "A" 172800, evIn "B" 172900, evIn "C" 173000]

/-- C7: the weekly aggregation has exactly one sample per calendar date
with at least one event (no sample for empty dates), and each sample's
count is the number of distinct identity tags appearing that date,
regardless of event kind; on the three-day demo data the samples are
(2, 1, 3). -/
theorem weekly_distinct_daily_counts :
    (∀ data : List AttendanceEvent,
        ((weeklyData data).map Prod.fst).Nodup
        ∧ (∀ d : Nat, d ∈ (weeklyData data).map Prod.fst ↔
            d ∈ data.map (fun e => utcDay e.created_at))
        ∧ (∀ d c : Nat, (d, c) ∈ weeklyData data →
            c = ((data.filter (fun e => decide (utcDay e.created_at = d))).map
                  AttendanceEvent.rfid_uid).toFinset.card))
    ∧ weeklyData demoWeek = [(0, 2), (1, 1), (2, 3)] := by
  constructor
  · intro data
    have hkeys : (weeklyData data).map Prod.fst = (weeklyFold data).map Prod.fst := by
      rw [weeklyData, List.map_map]
      rfl
    refine ⟨?_, ?_, ?_⟩
    · rw [hkeys]
      exact nodupKeys_weeklyFold data
    · intro d
      rw [hkeys]
      constructor
      · intro hmem
        have hlk : lookupKey (weeklyFold data) d ≠ none := by
          intro hnone
          exact (lookupKey_eq_none_iff _ _).mp hnone hmem
        rw [lookupKey_weeklyFold] at hlk
        cases hf : data.filter (fun e => decide (utcDay e.created_at = d)) with
        | nil => rw [hf] at hlk; simp at hlk
        | cons e rest =>
            have he : e ∈ data.filter (fun e => decide (utcDay e.created_at = d)) := by
              rw [hf]
              exact List.mem_cons_self e rest
            rcases List.mem_filter.mp he with ⟨hed, hd⟩
            exact List.mem_map.mpr ⟨e, hed, by simpa using hd⟩
      · intro hmem
        rcases List.mem_map.mp hmem with ⟨e, he, hd⟩
        by_contra hnot
        have hnone : lookupKey (weeklyFold data) d = none :=
          (lookupKey_eq_none_iff _ _).mpr hnot
        rw [lookupKey_weeklyFold] at hnone
        cases hf : data.filter (fun e => decide (utcDay e.created_at = d)) with
        | cons x rest => rw [hf] at hnone; simp at hnone
        | nil =>
            rw [List.filter_eq_nil_iff] at hf
            exact hf e he (by simpa using hd)
    · intro d c hmem
      rcases List.mem_map.mp hmem with ⟨⟨d0, uids⟩, hp, heq⟩
      simp only [Prod.mk.injEq] at heq
      obtain ⟨rfl, rfl⟩ := heq
      have hlk : lookupKey (weeklyFold data) d0 = some uids :=
        lookupKey_eq_some_of_mem_nodup _ _ _ (nodupKeys_weeklyFold data) hp
      rw [lookupKey_weeklyFold] at hlk
      cases hf : data.filter (fun e => decide (utcDay e.created_at = d0)) with
      | nil => rw [hf] at hlk; simp at hlk
      | cons e rest =>
          rw [hf] at hlk
          simp only [Option.some.injEq] at hlk
          rw [← hlk, length_foldInsert_eq_card]
  · decide

/-- Witness for C7's count conjunct on the demo data's first day. -/
theorem weekly_distinct_daily_counts_witness :
    (2 : Nat) = ((demoWeek.filter (fun e => decide (utcDay e.created_at = 0))).map
        AttendanceEvent.rfid_uid).toFinset.card :=
  (weekly_distinct_daily_counts.1 demoWeek).2.2 0 2 (by decide)

/-- C8: appending one synthetic `OUT` per present identity empties the
present set (count 0), so a second Closer invocation finds nobody and
writes nothing. -/
theorem closer_idempotent :
    ∀ (es : List AttendanceEvent) (nowTime nextTime : Nat),
      peoplePresent (es ++ closerOuts es nowTime) = []
      ∧ currentCount (es ++ closerOuts es nowTime) = 0
      ∧ closerOuts (es ++ closerOuts es nowTime) nextTime = [] := by
  intro es nowTime nextTime
  refine ⟨peoplePresent_append_closerOuts es nowTime, ?_, ?_⟩
  · rw [currentCount, peoplePresent_append_closerOuts es nowTime]
    rfl
  · rw [closerOuts, peoplePresent_append_closerOuts es nowTime]
    rfl

/-- C9 is refuted for the express `GET /cron/auto-checkout` route: it has
no auth check at all, so a request with a mismatched bearer token is
served normally (200, store read issued), not rejected with 401. -/
theorem expressCron_ignores_auth :
    (expressCronAutoCheckout (some "Bearer wrong") (Except.ok [{ rfid_uid := "A" }])
        (fun _ => Except.ok ())).status = 200
    ∧ (expressCronAutoCheckout (some "Bearer wrong") (Except.ok [{ rfid_uid := "A" }])
        (fun _ => Except.ok ())).storeReads = 1 := by
  constructor <;> rfl

/-- C9 amended: the serverless scheduled handler compares the bearer token
first and, on mismatch, answers 401 having issued no store read or write
and processed nothing else. -/
theorem cron_auth_short_circuits :
    ∀ (auth : Option String) (secret : String)
      (fetchPresent : Except String (List PresentUser)) (w : String → Except String Unit),
      auth ≠ some ("Bearer " ++ secret) →
      cronAutoCheckout auth secret fetchPresent w =
        { status := 401, storeReads := 0, storeWrites := 0, logs := [] } := by
  intro auth secret f w h
  simp [cronAutoCheckout, h]

/-- Witness for C9's amended theorem: wrong token, everything rejected. -/
theorem cron_auth_short_circuits_witness :
    cronAutoCheckout (some "Bearer wrong") "right" (Except.ok []) (fun _ => Except.ok ())
      = { status := 401, storeReads := 0, storeWrites := 0, logs := [] } :=
  cron_auth_short_circuits (some "Bearer wrong") "right" (Except.ok [])
    (fun _ => Except.ok ()) (by decide)

/-- C10: the today filter keeps an event exactly when its UTC calendar day
equals the request time's UTC calendar day; it is not a rolling 24-hour
window (two timestamps 2 seconds apart straddling UTC midnight are
separated) and not the lab's IST midnight (two timestamps in one UTC day
but in different IST days are both kept). -/
theorem today_filter_is_utc_day :
    (∀ (es : List AttendanceEvent) (nowTime : Nat) (e : AttendanceEvent),
        e ∈ todayAttendance es nowTime ↔ e ∈ es ∧ utcDay e.created_at = utcDay nowTime)
    ∧ (86401 - 86399 < 86400 ∧ isTodayEntry 86399 86401 = false)
    ∧ (isTodayEntry 10000 70000 = true ∧ istDay 10000 ≠ istDay 70000) := by
  refine ⟨?_, ⟨by decide, by decide⟩, ⟨by decide, by decide⟩⟩
  intro es nowTime e
  simp [todayAttendance, isTodayEntry, List.mem_filter]

end Attendance
